/-
Verification of the `yell` logging library (github.com/jfcg/yell) against its
natural-language specification.

The Go source (the most recent revision of yell.go, the one with `Caller`
support, `GetLevel` and write-error propagation) is shallowly embedded below.
Go strings are byte sequences, so strings are modelled as `List Nat` of byte
values.  The ambient mutable globals (`Sname`, `TimeFormat`, `UTC`), the
wall clock and `runtime.Caller` are gathered in an `Env` record that a `Log`
call reads; the observable effects of a call (lock, write, unlock, writer
swap) are returned as an explicit event trace.
-/
import Mathlib

namespace yell

/-- Go strings are byte sequences; we model them as lists of byte values. -/
abbrev Bytes := List Nat

/-- Severity is `type Severity uint32`; values used are 0..4. -/
abbrev Severity := Nat

/-- `Sinfo Severity = iota` -/
def Sinfo : Severity := 0
/-- `Swarn` -/
def Swarn : Severity := 1
/-- `Serror` -/
def Serror : Severity := 2
/-- `Sfatal` -/
def Sfatal : Severity := 3
/-- `Snolog` disables logging. -/
def Snolog : Severity := 4

/-- One element of the variadic `msg ...interface{}` list: either a
`yell.Caller` depth marker (`type Caller int`) or any other value,
represented by the bytes of its default `%v` rendering. -/
inductive MsgItem where
  | caller (d : Int)
  | val (s : Bytes)
deriving DecidableEq

/-- An `io.Writer` that may additionally implement `sync.Locker`.
`lockerId` is `some i` when the dynamic value also implements the locker
interface, with `i` the identity of the underlying lock instance (Go
compares the two interface values with `!=`).  `write` gives the error
returned by writing a given byte sequence (`none` = success). -/
structure Writer where
  lockerId : Option Nat
  write : Bytes → Option Bytes

/-- The `Logger` struct: name, writer, minimum severity. -/
structure Logger where
  name : Bytes
  writer : Writer
  minLevel : Severity

/-- Observable effects of a call.  Besides the writer/locker effects
(lock, write, unlock, writer swap), the trace records the two host
collaborator queries a `Log` call makes: the wall-clock read
(`time.Now()`) and the stack-location resolution
(`runtime.Caller(depth)`), at the position in the call where the code
performs them. -/
inductive Event where
  | clock
  | resolve (depth : Nat)
  | lock
  | unlock
  | write (line : Bytes)
  | setWriter

/-- Host-collaborator queries (clock read, location resolution), as
opposed to effects on the writer/locker. -/
def hostEv : Event → Bool
  | .clock => true
  | .resolve _ => true
  | _ => false

/-- Process-wide state and host collaborators read by a `Log` call:
the severity-name table `Sname` (indexed by severity ordinal), the
`TimeFormat` string and `UTC` flag, the rendering of the captured
`time.Now()` under a given UTC flag and format, and `runtime.Caller`
(skip depth ↦ full file path and line, or failure). -/
structure Env where
  sname : Nat → Bytes
  timeFormat : Bytes
  utc : Bool
  formatTime : Bool → Bytes → Bytes
  caller : Nat → Option (Bytes × Nat)

/-- `func isSpace(b byte) bool` from the older revision: the spec's
whitespace set (space, tab, newline, carriage return). -/
def isSpace (b : Nat) : Bool :=
  b == 32 || b == 9 || b == 10 || b == 13

/-- The rejection condition of `New`, with `l := len(name)-1` inlined:
`l < 3 || name[0] != ':' || name[1] != ' ' || name[2] <= ' ' ||
name[l-1] <= ' ' || name[l] != ':' || writer == nil || minLevel > Snolog`
(byte comparisons: `':' = 58`, `' ' = 32`). -/
def newRejects (name : Bytes) (writer : Option Writer)
    (minLevel : Severity) : Prop :=
  name.length - 1 < 3 ∨ name.getD 0 0 ≠ 58 ∨ name.getD 1 0 ≠ 32 ∨
  name.getD 2 0 ≤ 32 ∨ name.getD (name.length - 1 - 1) 0 ≤ 32 ∨
  name.getD (name.length - 1) 0 ≠ 58 ∨ writer.isNone = true ∨
  minLevel > Snolog

instance (name : Bytes) (writer : Option Writer) (minLevel : Severity) :
    Decidable (newRejects name writer minLevel) := by
  unfold newRejects; infer_instance

/-- `New(name, writer, minLevel)`: validates and returns a Logger, or
`none` where the Go code panics. -/
def New (name : Bytes) (writer : Option Writer) (minLevel : Severity) :
    Option Logger :=
  if newRejects name writer minLevel then none
  else writer.map fun w => ⟨name, w, minLevel⟩

/-- `Name()` returns the name skipping `": "`. -/
def Name (lg : Logger) : Bytes := lg.name.drop 2

/-- `UpdateWriter`: returns (success, updated logger, lock events around the
swap).  Mirrors the Go body: nil refused; if the current writer is a locker
and the new writer is a different locker, refused; otherwise the swap runs,
bracketed by Lock/Unlock when the current writer is a locker. -/
def UpdateWriter (lg : Logger) (writer : Option Writer) :
    Bool × Logger × List Event :=
  match writer with
  | none => (false, lg, [])
  | some w =>
    match lg.writer.lockerId with
    | some lc =>
      match w.lockerId with
      | some lc2 =>
        if lc ≠ lc2 then (false, lg, [])
        else (true, { lg with writer := w }, [.lock, .setWriter, .unlock])
      | none => (true, { lg with writer := w }, [.lock, .setWriter, .unlock])
    | none => (true, { lg with writer := w }, [.setWriter])

/-- `SetLevel` clamps levels above `Snolog` to `Snolog`. -/
def SetLevel (lg : Logger) (level : Severity) : Logger :=
  if level > Snolog then { lg with minLevel := Snolog }
  else { lg with minLevel := level }

/-- `SetMinLevel` from the older revision, textually the same clamp. -/
def SetMinLevel (lg : Logger) (level : Severity) : Logger :=
  if level > Snolog then { lg with minLevel := Snolog }
  else { lg with minLevel := level }

/-- `GetLevel` returns the minimum severity level. -/
def GetLevel (lg : Logger) : Severity := lg.minLevel

/-- Decimal rendering of a natural number (`%d`). -/
def natToDec (n : Nat) : Bytes := (Nat.toDigits 10 n).map Char.toNat

/-- Decimal rendering of a Go int (`%v` of `Caller`). -/
def intToDec (d : Int) : Bytes :=
  if d < 0 then 45 :: natToDec d.natAbs else natToDec d.toNat

/-- `filepath.Base` (unix): empty path gives ".", trailing separators are
dropped, the last path element is returned, all-separators gives "/". -/
def filepathBase (path : Bytes) : Bytes :=
  if path = [] then [46]
  else
    let p := (path.reverse.dropWhile (· = 47)).reverse
    let q := (p.reverse.takeWhile (· ≠ 47)).reverse
    if q = [] then [47] else q

/-- Default `%v` rendering of one `Fprintln` operand. -/
def renderItem : MsgItem → Bytes
  | .caller d => intToDec d
  | .val s => s

/-- Join byte strings with single spaces between consecutive elements. -/
def joinSp : List Bytes → Bytes
  | [] => []
  | [x] => x
  | x :: y :: xs => x ++ [32] ++ joinSp (y :: xs)

/-- `fmt.Fprintln(w, msg...)`: operands rendered with `%v`, separated by
single spaces, newline appended; the whole line goes to the writer in one
`Write` call. -/
def fprintln (items : List MsgItem) : Bytes :=
  joinSp (items.map renderItem) ++ [10]

/-- Clamp of the caller depth: `if skip < 0 { skip = 0 } else if skip > 99
{ skip = 99 }`. -/
def clampSkip (d : Int) : Int :=
  if d < 0 then 0 else if d > 99 then 99 else d

/-- The record prefix `prem`: formatted time ++ name ++ `Sname[level]`,
plus `" file.go:line:"` when `runtime.Caller(skip+2)` succeeds (with the
file reduced to its base name). -/
def premOf (env : Env) (lg : Logger) (level : Severity) (skip : Int) :
    Bytes :=
  let p := env.formatTime env.utc env.timeFormat ++ lg.name ++ env.sname level
  match env.caller (skip.toNat + 2) with
  | some (file, line) =>
      p ++ [32] ++ filepathBase file ++ [58] ++ natToDec line ++ [58]
  | none => p

/-- The write step shared by both `Log` branches: assemble the line with
`Fprintln`, bracket the single write with Lock/Unlock when the writer is
also a locker, and return the write's error. -/
def emit (lg : Logger) (outMsg : List MsgItem) : List Event × Option Bytes :=
  let line := fprintln outMsg
  (if lg.writer.lockerId.isSome then [.lock, .write line, .unlock]
   else [.write line],
   lg.writer.write line)

/-- Result of a `Log` call: the event trace, the returned error, and the
contents of the caller's `msg` slice after the call (the slice is mutated
in place when its first element was a `Caller`). -/
structure LogResult where
  events : List Event
  err : Option Bytes
  msgAfter : List MsgItem
deriving Inhabited

/-- `Log(level, msg...)` of the latest revision, with the full event
trace: gate `lg.minLevel <= level && level < Snolog && 0 < len(msg)`;
then `now := time.Now()` (the clock read — it happens even when a lone
`Caller` marker makes the call return early just after); the marker's
depth is clamped into [0,99] and added to the base depth 2 for the
`runtime.Caller` resolution; `prem` replaces the marker in place (or is
prepended to a fresh slice); the single `Fprintln` write is bracketed by
Lock/Unlock when the writer is a locker, and its error is returned.  The
clock read and the location resolution sit in the trace exactly where
the code performs them: after the gate and before any locking. -/
def logFull (env : Env) (lg : Logger) (level : Severity)
    (msg : List MsgItem) : LogResult :=
  if lg.minLevel ≤ level ∧ level < Snolog ∧ 0 < msg.length then
    match msg with
    | .caller d :: rest =>
      if rest.isEmpty then
        { events := [.clock], err := none, msgAfter := msg }
      else
        let out := MsgItem.val (premOf env lg level (clampSkip d)) :: rest
        { events := .clock :: .resolve ((clampSkip d).toNat + 2) ::
            (emit lg out).1,
          err := (emit lg out).2, msgAfter := out }
    | _ =>
      let out := MsgItem.val (premOf env lg level 0) :: msg
      { events := .clock :: .resolve 2 :: (emit lg out).1,
        err := (emit lg out).2, msgAfter := msg }
  else { events := [], err := none, msgAfter := msg }

/-- The writer/locker-observable view of a `Log` call: the same error and
message list as `logFull`, with the host-collaborator queries (clock
read, location resolution) projected out of the trace, keeping the
effects on the writer. -/
def Log (env : Env) (lg : Logger) (level : Severity) (msg : List MsgItem) :
    LogResult :=
  { logFull env lg level msg with
    events := (logFull env lg level msg).events.filter fun e => !hostEv e }

/-- `Fatal(msg...)`: logs at `Sfatal`, then builds the panic message
`Name() + Sname[Sfatal]` with the write error's text appended when the
`Log` call failed, and panics unconditionally.  The returned pair is the
panic message and the trace of the underlying `Log` call. -/
def Fatal (env : Env) (lg : Logger) (msg : List MsgItem) :
    Bytes × List Event :=
  let r := Log env lg Sfatal msg
  let pm := Name lg ++ env.sname Sfatal
  (match r.err with
   | some e => pm ++ e
   | none => pm,
   r.events)

/-! ### Spec-side vocabulary -/

/-- Stripping a leading caller-depth marker from a message list
(spec wording for the gate). -/
def stripMarker : List MsgItem → List MsgItem
  | .caller _ :: rest => rest
  | ms => ms

/-- The spec's gate: the message is non-empty after stripping a leading
caller-depth marker, and `T <= S < nolog`. -/
def specGatePass (minLevel level : Severity) (msg : List MsgItem) : Prop :=
  stripMarker msg ≠ [] ∧ minLevel ≤ level ∧ level < Snolog

instance (minLevel level : Severity) (msg : List MsgItem) :
    Decidable (specGatePass minLevel level msg) := by
  unfold specGatePass; infer_instance

/-- Is an event a write? -/
def isWriteEv : Event → Bool
  | .write _ => true
  | _ => false

/-- Number of write events in a trace. -/
def countWrites (es : List Event) : Nat := (es.filter isWriteEv).length

/-- The name-format rule as the claim words it: total length at least 4,
starts with `": "`, ends with `":"`, and the first and last interior
bytes are not whitespace (space, tab, newline, carriage return). -/
def specNameOk (name : Bytes) : Prop :=
  4 ≤ name.length ∧ name.getD 0 0 = 58 ∧ name.getD 1 0 = 32 ∧
  name.getD (name.length - 1) 0 = 58 ∧
  isSpace (name.getD 2 0) = false ∧
  isSpace (name.getD (name.length - 2) 0) = false

instance (name : Bytes) : Decidable (specNameOk name) := by
  unfold specNameOk; infer_instance

/-- The name rule actually enforced by the code: the first and last interior
bytes must be strictly greater than the space byte (so every ASCII control
character is rejected too, not only whitespace). -/
def codeNameOk (name : Bytes) : Prop :=
  4 ≤ name.length ∧ name.getD 0 0 = 58 ∧ name.getD 1 0 = 32 ∧
  name.getD (name.length - 1) 0 = 58 ∧
  32 < name.getD 2 0 ∧ 32 < name.getD (name.length - 2) 0

instance (name : Bytes) : Decidable (codeNameOk name) := by
  unfold codeNameOk; infer_instance

/-- Is the first message element a caller-depth marker? -/
def isCallerHead : List MsgItem → Bool
  | .caller _ :: _ => true
  | _ => false

/-- The optional location segment of a record: `" file.go:line:"` when
`runtime.Caller(depth)` succeeds, empty (omitted) when it fails. -/
def locSegment (env : Env) (depth : Nat) : Bytes :=
  match env.caller depth with
  | some (file, line) =>
      [32] ++ filepathBase file ++ [58] ++ natToDec line ++ [58]
  | none => []

/-- The stack depth a `Log` call passes to `runtime.Caller`: the clamped
caller-depth marker (0 when absent) plus the fixed base depth 2. -/
def resolvedDepth : List MsgItem → Nat
  | .caller d :: _ => (clampSkip d).toNat + 2
  | _ => 2

/-! ### Concrete fixtures for witnesses -/

/-- A writer that is not a locker and always accepts writes. -/
def wPlain : Writer := ⟨none, fun _ => none⟩

/-- A writer that is not a locker and always fails with error text "e". -/
def wErr : Writer := ⟨none, fun _ => some [101]⟩

/-- A locker-writer with lock identity `i`, accepting writes. -/
def wLock (i : Nat) : Writer := ⟨some i, fun _ => none⟩

/-- A locker-writer with lock identity `i`, failing with error text "e". -/
def wLockErr (i : Nat) : Writer := ⟨some i, fun _ => some [101]⟩

/-- A concrete environment: severity names `s<i>:`, a one-byte time format,
time rendered as `TF` (local) or `UF` (UTC), and `runtime.Caller`
succeeding only at depth 2 with file `/a/f.go`, line 7. -/
def testEnv : Env where
  sname := fun i => [115, 48 + i % 10, 58]
  timeFormat := [70]
  utc := false
  formatTime := fun u f => if u then [85] ++ f else [84] ++ f
  caller := fun d =>
    if d = 2 then some ([47, 97, 47, 102, 46, 103, 111], 7) else none

/-- Logger ": a:" with a plain accepting writer, threshold info. -/
def lgPlain : Logger := ⟨[58, 32, 97, 58], wPlain, Sinfo⟩

/-- Logger ": a:" with a failing plain writer, threshold info. -/
def lgErrW : Logger := ⟨[58, 32, 97, 58], wErr, Sinfo⟩

/-- Logger ": a:" with an accepting locker-writer, threshold warn. -/
def lgLock : Logger := ⟨[58, 32, 97, 58], wLock 5, Swarn⟩

/-- Logger ": a:" with a failing locker-writer, threshold info. -/
def lgLockErr : Logger := ⟨[58, 32, 97, 58], wLockErr 3, Sinfo⟩

/-! ### Helper lemmas -/

lemma emit_events_filter (lg : Logger) (out : List MsgItem) :
    (emit lg out).1.filter isWriteEv = [Event.write (fprintln out)] := by
  unfold emit
  cases h : lg.writer.lockerId.isSome <;> simp [h, isWriteEv, List.filter]

lemma emit_err (lg : Logger) (out : List MsgItem) :
    (emit lg out).2 = lg.writer.write (fprintln out) := rfl

lemma emit_events_locker (lg : Logger) (out : List MsgItem)
    (h : lg.writer.lockerId.isSome = true) :
    (emit lg out).1 = [.lock, .write (fprintln out), .unlock] := by
  unfold emit
  simp [h]

lemma countWrites_emit (lg : Logger) (out : List MsgItem) :
    countWrites (emit lg out).1 = 1 := by
  rw [countWrites, emit_events_filter]
  rfl

lemma emit_filter_host (lg : Logger) (out : List MsgItem) :
    (emit lg out).1.filter (fun e => !hostEv e) = (emit lg out).1 := by
  unfold emit
  cases h : lg.writer.lockerId.isSome <;> simp [h, hostEv]

lemma filter_host_cons (k : Nat) (es : List Event) :
    (Event.clock :: Event.resolve k :: es).filter (fun e => !hostEv e) =
      es.filter (fun e => !hostEv e) := by
  simp [List.filter, hostEv]

/-- A gate-passing call whose message starts with a caller-depth marker
followed by a payload: the full trace is the clock read, the location
resolution at the clamped depth plus 2, then the emit events; the marker
slot is overwritten with `prem` in place. -/
lemma logFull_emit_caller (env : Env) (lg : Logger) (level : Severity)
    (d : Int) (rest : List MsgItem) (hr : rest ≠ [])
    (h1 : lg.minLevel ≤ level) (h2 : level < Snolog) :
    logFull env lg level (.caller d :: rest) =
      { events := .clock :: .resolve ((clampSkip d).toNat + 2) ::
          (emit lg (MsgItem.val (premOf env lg level (clampSkip d)) :: rest)).1,
        err :=
          (emit lg (MsgItem.val (premOf env lg level (clampSkip d)) :: rest)).2,
        msgAfter :=
          MsgItem.val (premOf env lg level (clampSkip d)) :: rest } := by
  unfold logFull
  rw [if_pos ⟨h1, h2, by simp⟩]
  simp only [List.isEmpty_eq_true]
  rw [if_neg hr]

/-- A gate-passing call whose message does not start with a marker: the
clock read, the location resolution at base depth 2, then the emit
events; `prem` is prepended to a fresh list, the caller's list kept. -/
lemma logFull_emit_plain (env : Env) (lg : Logger) (level : Severity)
    (msg : List MsgItem) (hm : isCallerHead msg = false) (hne : msg ≠ [])
    (h1 : lg.minLevel ≤ level) (h2 : level < Snolog) :
    logFull env lg level msg =
      { events := .clock :: .resolve 2 ::
          (emit lg (MsgItem.val (premOf env lg level 0) :: msg)).1,
        err := (emit lg (MsgItem.val (premOf env lg level 0) :: msg)).2,
        msgAfter := msg } := by
  unfold logFull
  rcases msg with _ | ⟨m0, rest⟩
  · exact absurd rfl hne
  · rw [if_pos ⟨h1, h2, by simp⟩]
    rcases m0 with d | s
    · simp [isCallerHead] at hm
    · rfl

/-- Projecting a full trace that starts with the clock read and the
location resolution: the writer-observable view keeps the remaining
events (filtered of host queries), the error and the message list. -/
lemma log_of_logFull (env : Env) (lg : Logger) (level : Severity)
    (msg : List MsgItem) (k : Nat) (es : List Event) (e : Option Bytes)
    (ma : List MsgItem)
    (h : logFull env lg level msg =
      { events := Event.clock :: Event.resolve k :: es, err := e,
        msgAfter := ma }) :
    Log env lg level msg =
      { events := es.filter (fun x => !hostEv x), err := e,
        msgAfter := ma } := by
  unfold Log
  rw [h]
  simp [filter_host_cons]

/-- A `Log` call that the spec's gate rejects returns no error and has no
side effect, leaving the caller's message list untouched. -/
lemma log_suppressed (env : Env) (lg : Logger) (level : Severity)
    (msg : List MsgItem) (h : ¬ specGatePass lg.minLevel level msg) :
    Log env lg level msg = { events := [], err := none, msgAfter := msg } := by
  unfold Log logFull
  by_cases hg : lg.minLevel ≤ level ∧ level < Snolog ∧ 0 < msg.length
  · rw [if_pos hg]
    rcases msg with _ | ⟨m0, rest⟩
    · simp at hg
    · rcases m0 with d | s
      · rcases rest with _ | ⟨r, rs⟩
        · simp [hostEv]
        · exact absurd ⟨by simp [stripMarker], hg.1, hg.2.1⟩ h
      · exact absurd ⟨by simp [stripMarker], hg.1, hg.2.1⟩ h
  · rw [if_neg hg]
    rfl

/-- A gate-passing `Log` call whose message starts with a caller-depth
marker followed by a payload: the marker slot is overwritten with `prem`
in place and the write emits that mutated list. -/
lemma log_emit_caller (env : Env) (lg : Logger) (level : Severity)
    (d : Int) (rest : List MsgItem) (hr : rest ≠ [])
    (h1 : lg.minLevel ≤ level) (h2 : level < Snolog) :
    Log env lg level (.caller d :: rest) =
      { events :=
          (emit lg (MsgItem.val (premOf env lg level (clampSkip d)) :: rest)).1,
        err :=
          (emit lg (MsgItem.val (premOf env lg level (clampSkip d)) :: rest)).2,
        msgAfter :=
          MsgItem.val (premOf env lg level (clampSkip d)) :: rest } := by
  rw [log_of_logFull env lg level (.caller d :: rest) _ _ _ _
    (logFull_emit_caller env lg level d rest hr h1 h2), emit_filter_host]

/-- A gate-passing `Log` call whose message does not start with a marker:
`prem` is prepended to a fresh list and the caller's list is unchanged. -/
lemma log_emit_plain (env : Env) (lg : Logger) (level : Severity)
    (msg : List MsgItem) (hm : isCallerHead msg = false) (hne : msg ≠ [])
    (h1 : lg.minLevel ≤ level) (h2 : level < Snolog) :
    Log env lg level msg =
      { events := (emit lg (MsgItem.val (premOf env lg level 0) :: msg)).1,
        err := (emit lg (MsgItem.val (premOf env lg level 0) :: msg)).2,
        msgAfter := msg } := by
  rw [log_of_logFull env lg level msg _ _ _ _
    (logFull_emit_plain env lg level msg hm hne h1 h2), emit_filter_host]

lemma premOf_eq (env : Env) (lg : Logger) (level : Severity) (s : Int) :
    premOf env lg level s =
      env.formatTime env.utc env.timeFormat ++ lg.name ++ env.sname level ++
        locSegment env (s.toNat + 2) := by
  unfold premOf locSegment
  cases h : env.caller (s.toNat + 2) with
  | none => simp
  | some p =>
    cases p
    simp [List.append_assoc]

lemma fprintln_cons (prem : Bytes) (payload : List MsgItem)
    (h : payload ≠ []) :
    fprintln (MsgItem.val prem :: payload) =
      prem ++ [32] ++ joinSp (payload.map renderItem) ++ [10] := by
  unfold fprintln
  rcases payload with _ | ⟨p, ps⟩
  · exact absurd rfl h
  · simp [joinSp, renderItem, List.append_assoc]

/-! ### Claims -/

/-- C8: after `SetLevel v` (equally `SetMinLevel v`) the stored threshold
is `Snolog` when `v > Snolog` and `v` otherwise, hence always within
`[Sinfo, Snolog]`, and `GetLevel` returns exactly that stored value. -/
theorem c8_level_clamp (lg : Logger) (v : Severity) :
    GetLevel (SetLevel lg v) = (if Snolog < v then Snolog else v) ∧
    Sinfo ≤ GetLevel (SetLevel lg v) ∧ GetLevel (SetLevel lg v) ≤ Snolog ∧
    GetLevel (SetMinLevel lg v) = GetLevel (SetLevel lg v) := by
  unfold GetLevel SetLevel SetMinLevel Sinfo Snolog
  split <;> simp_all

/-- C3: `UpdateWriter` refuses (false, no mutation, no lock activity)
exactly when the new writer is null or both old and new writers are
lockers with different lock identities; otherwise it swaps the writer
field, returns true, and brackets the swap with exactly one Lock/Unlock
pair precisely when the old writer was a locker. -/
theorem c3_update_writer (lg : Logger) (w : Option Writer) :
    (w = none → UpdateWriter lg w = (false, lg, [])) ∧
    (∀ w2, w = some w2 →
      ((∃ a b, lg.writer.lockerId = some a ∧ w2.lockerId = some b ∧ a ≠ b) →
        UpdateWriter lg w = (false, lg, [])) ∧
      (¬ (∃ a b, lg.writer.lockerId = some a ∧ w2.lockerId = some b ∧
            a ≠ b) →
        UpdateWriter lg w =
          (true, { lg with writer := w2 },
            if lg.writer.lockerId.isSome then
              [Event.lock, Event.setWriter, Event.unlock]
            else [Event.setWriter]))) := by
  constructor
  · rintro rfl; rfl
  · rintro w2 rfl
    constructor
    · rintro ⟨a, b, ha, hb, hab⟩
      simp [UpdateWriter, ha, hb, hab]
    · intro hno
      cases hA : lg.writer.lockerId with
      | none => simp [UpdateWriter, hA]
      | some a =>
        cases hB : w2.lockerId with
        | none => simp [UpdateWriter, hA, hB]
        | some b =>
          have hab : a = b := by
            by_contra hne
            exact hno ⟨a, b, hA, hB, hne⟩
          subst hab
          simp [UpdateWriter, hA, hB]

/-- C3 witness: swapping in a locker-writer with a different lock identity
is refused with no mutation and no lock activity. -/
theorem c3_update_writer_witness :
    UpdateWriter lgLock (some (wLock 6)) = (false, lgLock, []) :=
  ((c3_update_writer lgLock (some (wLock 6))).2 (wLock 6) rfl).1
    ⟨5, 6, rfl, rfl, by decide⟩

/-- C4 counterexample: the name `": \x01:"` satisfies the claim's format
rule (byte 1 is none of space, tab, newline, carriage return), the writer
is non-null and the severity valid, yet `New` panics — the code rejects
every interior byte `≤ 0x20`, not only the four whitespace characters. -/
theorem c4_new_cex :
    specNameOk [58, 32, 1, 58] ∧ ¬ Snolog < 0 ∧
    New [58, 32, 1, 58] (some wPlain) 0 = none :=
  ⟨by decide, by decide, rfl⟩

/-- C4 (amended): `New` panics exactly when the name fails the code's
format rule — length at least 4, starts with `": "`, ends with `":"`, and
the first and last interior bytes strictly greater than the space byte
0x20 — or the writer is null, or minLevel exceeds `Snolog`; on success
the Logger's fields equal the arguments verbatim. -/
theorem c4_new_validation (name : Bytes) (w : Option Writer)
    (ml : Severity) :
    ((New name w ml).isNone = true ↔
      (¬ codeNameOk name ∨ w.isNone = true ∨ Snolog < ml)) ∧
    (∀ w2 lg2, w = some w2 → New name w ml = some lg2 →
      lg2.name = name ∧ lg2.writer = w2 ∧ lg2.minLevel = ml) := by
  have key : newRejects name w ml ↔
      (¬ codeNameOk name ∨ w.isNone = true ∨ Snolog < ml) := by
    by_cases hw : w.isNone = true <;> by_cases hml : Snolog < ml <;>
      simp [hw, hml, newRejects, codeNameOk, Nat.sub_sub] <;> omega
  constructor
  · unfold New
    by_cases hc : newRejects name w ml
    · rw [if_pos hc]
      simpa using key.mp hc
    · rw [if_neg hc]
      have hr : ¬ (¬ codeNameOk name ∨ w.isNone = true ∨ Snolog < ml) :=
        fun h => hc (key.mpr h)
      rcases w with _ | w2
      · exact absurd (Or.inr (Or.inl rfl)) hr
      · exact iff_of_false (by simp) hr
  · rintro w2 lg2 rfl hnew
    unfold New at hnew
    by_cases hc : newRejects name (some w2) ml
    · rw [if_pos hc] at hnew
      exact absurd hnew (by simp)
    · rw [if_neg hc] at hnew
      simp only [Option.map_some'] at hnew
      cases hnew
      exact ⟨rfl, rfl, rfl⟩

/-- C4 witness: a well-formed call succeeds with the fields verbatim. -/
theorem c4_new_validation_witness :
    (Logger.name ⟨[58, 32, 97, 58], wPlain, 1⟩ = [58, 32, 97, 58]) ∧
    (Logger.writer ⟨[58, 32, 97, 58], wPlain, 1⟩ = wPlain) ∧
    (Logger.minLevel ⟨[58, 32, 97, 58], wPlain, 1⟩ = 1) :=
  (c4_new_validation [58, 32, 97, 58] (some wPlain) 1).2 wPlain
    ⟨[58, 32, 97, 58], wPlain, 1⟩ rfl rfl

/-- C5: `Fatal` always panics; the panic message is the logger's name
followed by the fatal severity display name, with the write error's text
appended exactly when the underlying `Log` call returned an error (the
trace is exactly the underlying `Log` call's, so the abort happens also
when that call was suppressed by threshold or `Snolog`). -/
theorem c5_fatal_panic (env : Env) (lg : Logger) (msg : List MsgItem) :
    (∀ e, (Log env lg Sfatal msg).err = some e →
      (Fatal env lg msg).1 = Name lg ++ env.sname Sfatal ++ e) ∧
    ((Log env lg Sfatal msg).err = none →
      (Fatal env lg msg).1 = Name lg ++ env.sname Sfatal) ∧
    (Fatal env lg msg).2 = (Log env lg Sfatal msg).events := by
  refine ⟨?_, ?_, rfl⟩
  · intro e he
    simp [Fatal, he, List.append_assoc]
  · intro he
    simp [Fatal, he]

/-- C5 witness: with a failing writer the panic message carries the write
error text; with a suppressed call it is just name plus severity name. -/
theorem c5_fatal_panic_witness :
    (Fatal testEnv lgErrW [.val [120]]).1 =
      Name lgErrW ++ testEnv.sname Sfatal ++ [101] :=
  (c5_fatal_panic testEnv lgErrW [.val [120]]).1 [101] (by decide)

/-- C1: `Log` performs exactly one write iff the message is non-empty
after stripping a leading caller-depth marker and
`minLevel ≤ level < Snolog`; in every suppressed case it returns no
error and has no side effect (empty trace, message list untouched) — in
particular a one-element list holding only a marker is suppressed
without error. -/
theorem c1_log_gate (env : Env) (lg : Logger) (level : Severity)
    (msg : List MsgItem) :
    (countWrites (Log env lg level msg).events = 1 ↔
      specGatePass lg.minLevel level msg) ∧
    (¬ specGatePass lg.minLevel level msg →
      Log env lg level msg = { events := [], err := none, msgAfter := msg }) := by
  refine ⟨⟨?_, ?_⟩, log_suppressed env lg level msg⟩
  · intro hw
    by_contra hs
    rw [log_suppressed env lg level msg hs] at hw
    simp [countWrites] at hw
  · rintro ⟨hne, h1, h2⟩
    rcases msg with _ | ⟨m0, rest⟩
    · exact absurd rfl hne
    · rcases m0 with d | s
      · have hr : rest ≠ [] := by simpa [stripMarker] using hne
        rw [log_emit_caller env lg level d rest hr h1 h2]
        exact countWrites_emit ..
      · rw [log_emit_plain env lg level (.val s :: rest) rfl (by simp) h1 h2]
        exact countWrites_emit ..

/-- C1 witness: a lone caller-depth marker at a passing severity is
suppressed without error and without touching the list; an ordinary
one-element message produces exactly one write. -/
theorem c1_log_gate_witness :
    Log testEnv lgPlain Swarn [.caller 1] =
      { events := [], err := none, msgAfter := [.caller 1] } ∧
    countWrites (Log testEnv lgPlain Swarn [.val [120]]).events = 1 :=
  ⟨(c1_log_gate testEnv lgPlain Swarn [.caller 1]).2 (by decide),
   (c1_log_gate testEnv lgPlain Swarn [.val [120]]).1.mpr (by decide)⟩

/-- C2: the single line written by a gate-passing `Log` call is the
rendered time (UTC first when the flag is set) ++ the stored name ++ the
severity-name table entry at `level` as read at log time ++ the location
segment (`" file:line:"`, empty with no error when discovery fails) ++ a
space ++ the payload items rendered and space-separated ++ a newline. -/
theorem c2_record_line (env : Env) (lg : Logger) (level : Severity)
    (msg : List MsgItem) (h : specGatePass lg.minLevel level msg) :
    (Log env lg level msg).events.filter isWriteEv =
      [Event.write (env.formatTime env.utc env.timeFormat ++ lg.name ++
        env.sname level ++ locSegment env (resolvedDepth msg) ++ [32] ++
        joinSp ((stripMarker msg).map renderItem) ++ [10])] := by
  obtain ⟨hne, h1, h2⟩ := h
  rcases msg with _ | ⟨m0, rest⟩
  · exact absurd rfl hne
  · rcases m0 with d | s
    · have hr : rest ≠ [] := by simpa [stripMarker] using hne
      rw [log_emit_caller env lg level d rest hr h1 h2]
      rw [emit_events_filter, fprintln_cons _ _ hr, premOf_eq]
      simp [stripMarker, resolvedDepth, List.append_assoc]
    · rw [log_emit_plain env lg level (.val s :: rest) rfl (by simp) h1 h2]
      rw [emit_events_filter, fprintln_cons _ _ (by simp), premOf_eq]
      simp [stripMarker, resolvedDepth, List.append_assoc]

/-- C2 witness: concrete line at warn severity, location found at depth 2
(no marker), payload `"x" 42`. -/
theorem c2_record_line_witness :
    (Log testEnv lgPlain Swarn [.val [120], .caller 42]).events.filter
        isWriteEv =
      [Event.write (testEnv.formatTime testEnv.utc testEnv.timeFormat ++
        lgPlain.name ++ testEnv.sname Swarn ++
        locSegment testEnv (resolvedDepth [.val [120], .caller 42]) ++
        [32] ++
        joinSp (List.map renderItem
          (stripMarker [.val [120], .caller 42])) ++ [10])] :=
  c2_record_line testEnv lgPlain Swarn [.val [120], .caller 42] (by decide)

/-- C6: when the writer is also a locker and the gate passes, the full
trace of a `Log` call is exactly: the clock read, then the location
resolution, then one lock acquisition, then the single write, then one
release — so the timestamp capture and the location resolution happen
strictly before the lock (outside the locked region), the write lies
strictly between the lock and the unlock, and the release is present
even when the write returns an error, which `Log` still reports. -/
theorem c6_lock_order (env : Env) (lg : Logger) (level : Severity)
    (msg : List MsgItem) (hp : specGatePass lg.minLevel level msg)
    (hl : lg.writer.lockerId.isSome = true) :
    ∃ L, (logFull env lg level msg).events =
        [.clock, .resolve (resolvedDepth msg), .lock, .write L, .unlock] ∧
      (logFull env lg level msg).err = lg.writer.write L ∧
      (Log env lg level msg).events = [.lock, .write L, .unlock] := by
  obtain ⟨hne, h1, h2⟩ := hp
  rcases msg with _ | ⟨m0, rest⟩
  · exact absurd rfl hne
  · rcases m0 with d | s
    · have hr : rest ≠ [] := by simpa [stripMarker] using hne
      rw [log_emit_caller env lg level d rest hr h1 h2,
        logFull_emit_caller env lg level d rest hr h1 h2,
        emit_events_locker _ _ hl]
      exact ⟨_, by simp [resolvedDepth], emit_err .., rfl⟩
    · rw [log_emit_plain env lg level (.val s :: rest) rfl (by simp) h1 h2,
        logFull_emit_plain env lg level (.val s :: rest) rfl (by simp) h1 h2,
        emit_events_locker _ _ hl]
      exact ⟨_, by simp [resolvedDepth], emit_err .., rfl⟩

/-- C6 witness: a locker-writer whose write fails still sees the order
clock, resolve, lock, write, unlock, and the error is returned. -/
theorem c6_lock_order_witness :
    ∃ L, (logFull testEnv lgLockErr Swarn [.val [120]]).events =
        [.clock, .resolve (resolvedDepth [MsgItem.val [120]]), .lock,
          .write L, .unlock] ∧
      (logFull testEnv lgLockErr Swarn [.val [120]]).err =
        lgLockErr.writer.write L ∧
      (Log testEnv lgLockErr Swarn [.val [120]]).events =
        [.lock, .write L, .unlock] :=
  c6_lock_order testEnv lgLockErr Swarn [.val [120]] (by decide) rfl

/-- C7: a leading caller-depth marker with a non-empty payload is removed
from the displayed payload; its value is clamped to 0 when negative and
to 99 when above 99; and the location is resolved at the clamped value
plus the fixed base depth 2. -/
theorem c7_caller_marker (env : Env) (lg : Logger) (level : Severity)
    (d : Int) (rest : List MsgItem) (hr : rest ≠ [])
    (h1 : lg.minLevel ≤ level) (h2 : level < Snolog) :
    (Log env lg level (.caller d :: rest)).events.filter isWriteEv =
      [Event.write (env.formatTime env.utc env.timeFormat ++ lg.name ++
        env.sname level ++
        locSegment env
          ((if d < 0 then 0 else if 99 < d then 99 else d).toNat + 2) ++
        [32] ++ joinSp (rest.map renderItem) ++ [10])] := by
  rw [log_emit_caller env lg level d rest hr h1 h2]
  rw [emit_events_filter, fprintln_cons _ _ hr, premOf_eq]
  simp [clampSkip, List.append_assoc]

/-- C7 witness: `Caller (-5)` is clamped to depth 0, so the location is
resolved at base depth 2 and the marker is absent from the payload. -/
theorem c7_caller_marker_witness :
    (Log testEnv lgPlain Sinfo [.caller (-5), .val [120]]).events.filter
        isWriteEv =
      [Event.write (testEnv.formatTime testEnv.utc testEnv.timeFormat ++
        lgPlain.name ++ testEnv.sname Sinfo ++
        locSegment testEnv
          ((if (-5 : Int) < 0 then 0 else if 99 < (-5 : Int) then 99
            else (-5 : Int)).toNat + 2) ++
        [32] ++ joinSp ([MsgItem.val [120]].map renderItem) ++ [10])] :=
  c7_caller_marker testEnv lgPlain Sinfo (-5) [.val [120]] (by decide)
    (by decide) (by decide)

/-- C9: every `Log` call that passes the gate attempts the write exactly
once, and returns to its caller exactly the error produced by that single
write (none when it succeeds). -/
theorem c9_write_error (env : Env) (lg : Logger) (level : Severity)
    (msg : List MsgItem) (h : specGatePass lg.minLevel level msg) :
    ∃ L, (Log env lg level msg).events.filter isWriteEv = [Event.write L] ∧
      (Log env lg level msg).err = lg.writer.write L := by
  obtain ⟨hne, h1, h2⟩ := h
  rcases msg with _ | ⟨m0, rest⟩
  · exact absurd rfl hne
  · rcases m0 with d | s
    · have hr : rest ≠ [] := by simpa [stripMarker] using hne
      rw [log_emit_caller env lg level d rest hr h1 h2]
      exact ⟨_, emit_events_filter .., emit_err ..⟩
    · rw [log_emit_plain env lg level (.val s :: rest) rfl (by simp) h1 h2]
      exact ⟨_, emit_events_filter .., emit_err ..⟩

/-- C9 witness: with a failing non-locker writer the single write's error
text is exactly what `Log` returns. -/
theorem c9_write_error_witness :
    ∃ L, (Log testEnv lgErrW Serror [.val [120]]).events.filter isWriteEv =
        [Event.write L] ∧
      (Log testEnv lgErrW Serror [.val [120]]).err =
        lgErrW.writer.write L :=
  c9_write_error testEnv lgErrW Serror [.val [120]] (by decide)

/-- C10: when the first element is a caller-depth marker and the call
writes, element 0 of the caller's list is overwritten in place with the
assembled prefix string; when no marker is present the caller's list is
left unchanged (a fresh list carries the prefix). -/
theorem c10_msg_mutation (env : Env) (lg : Logger) (level : Severity)
    (msg : List MsgItem) (h : specGatePass lg.minLevel level msg) :
    (∀ d rest, msg = .caller d :: rest →
      (Log env lg level msg).msgAfter =
        MsgItem.val (env.formatTime env.utc env.timeFormat ++ lg.name ++
          env.sname level ++
          locSegment env ((clampSkip d).toNat + 2)) :: rest) ∧
    (isCallerHead msg = false →
      (Log env lg level msg).msgAfter = msg) := by
  obtain ⟨hne, h1, h2⟩ := h
  constructor
  · rintro d rest rfl
    have hr : rest ≠ [] := by simpa [stripMarker] using hne
    rw [log_emit_caller env lg level d rest hr h1 h2, premOf_eq]
  · intro hm
    rcases msg with _ | ⟨m0, rest⟩
    · exact absurd rfl hne
    · rcases m0 with d | s
      · simp [isCallerHead] at hm
      · rw [log_emit_plain env lg level (.val s :: rest) rfl (by simp) h1 h2]

/-- C10 witness: a marker-headed list comes back with slot 0 replaced by
the assembled prefix; a plain list comes back unchanged. -/
theorem c10_msg_mutation_witness :
    (Log testEnv lgPlain Sinfo [.caller 1, .val [120]]).msgAfter =
      MsgItem.val (testEnv.formatTime testEnv.utc testEnv.timeFormat ++
        lgPlain.name ++ testEnv.sname Sinfo ++
        locSegment testEnv ((clampSkip 1).toNat + 2)) ::
        [MsgItem.val [120]] ∧
    (Log testEnv lgPlain Sinfo [.val [121]]).msgAfter = [.val [121]] :=
  ⟨(c10_msg_mutation testEnv lgPlain Sinfo [.caller 1, .val [120]]
      (by decide)).1 1 [.val [120]] rfl,
   (c10_msg_mutation testEnv lgPlain Sinfo [.val [121]]
      (by decide)).2 rfl⟩

end yell
